import Mathlib

/-!
Shallow embedding of `src/app/scripts/collections/modules/configs.js`
(the Configs collection module: profile resolution, batched save,
encryption backup) together with the fragments of JavaScript / underscore
semantics the module relies on.

External collaborators (the base module `collections/modules/module.js`,
the `collections/configs.js` collection, the storage and hash back ends)
are not part of `src/`; following the specification they are modelled as
oracle fields of an environment record, and every definition that stands
in for such missing code says so in its doc comment.
-/

namespace ConfigsModule

/-- JavaScript values as they occur in the module: the primitives plus
plain objects, an object being the list of its own properties in
insertion order. -/
inductive JSVal where
  | null
  | undefined
  | bool (b : Bool)
  | num (n : Int)
  | nan
  | str (s : String)
  | obj (fields : List (String × JSVal))
  deriving Repr

/-- Run-time errors the embedded code can raise. -/
inductive Err where
  | typeError
  | external (msg : String)
  deriving DecidableEq, Repr

/-- JavaScript truthiness (`if (v)`). -/
def jsTruthy : JSVal → Bool
  | .null => false
  | .undefined => false
  | .bool b => b
  | .num n => n != 0
  | .nan => false
  | .str s => s ≠ ""
  | .obj _ => true

/-- Embedding of `Number(v)` for the value shapes the module stores; `none` is `NaN`.
Strings convert as trimmed optionally-signed decimal integers, the empty
string converts to `0` (the module only ever stores such numerals in the
`useDefaultConfigs` flag). -/
def jsToNumber : JSVal → Option Int
  | .null => some 0
  | .undefined => none
  | .bool b => some (if b then 1 else 0)
  | .num n => some n
  | .nan => none
  | .str s =>
    let t := s.trim
    if t = "" then some 0
    else if t.startsWith "-" then
      match (t.drop 1).toNat? with
      | some n => some (-(n : Int))
      | none => none
    else
      match t.toNat? with
      | some n => some (n : Int)
      | none => none
  | .obj _ => none

/-- Truthiness of the result of `Number(v)`: `NaN` and `0` are falsy. -/
def numTruthy : Option Int → Bool
  | none => false
  | some n => n != 0

/-- Embedding of `String(v)` used when a value becomes a property key. -/
def jsPropKey : JSVal → String
  | .null => "null"
  | .undefined => "undefined"
  | .bool b => if b then "true" else "false"
  | .num n => toString n
  | .nan => "NaN"
  | .str s => s
  | .obj _ => "[object Object]"

/-- Embedding of `v.toString()`: raises `TypeError` on `null`/`undefined`, otherwise
behaves like `String(v)` on the shapes the module stores. -/
def jsToStringEx : JSVal → Except Err String
  | .null => .error .typeError
  | .undefined => .error .typeError
  | v => .ok (jsPropKey v)

/-- First-occurrence lookup of an own property in an object field list. -/
def alookup : List (String × JSVal) → String → Option JSVal
  | [], _ => none
  | (k, v) :: t, k' => if k = k' then some v else alookup t k'

/-- Embedding of `o[k]` on an object field list: `undefined` when the key is absent. -/
def alookupOrUndefined (l : List (String × JSVal)) (k : String) : JSVal :=
  (alookup l k).getD .undefined

/-- Property read `v.k`: `TypeError` on `null`/`undefined`, `undefined`
on primitives, lookup on objects. -/
def fieldEx : JSVal → String → Except Err JSVal
  | .null, _ => .error .typeError
  | .undefined, _ => .error .typeError
  | .obj l, k => .ok (alookupOrUndefined l k)
  | _, _ => .ok .undefined

/-- Property assignment `m[k] = v` on a field list: updates the existing
property in place, otherwise appends it. -/
def setAssoc : List (String × JSVal) → String → JSVal → List (String × JSVal)
  | [], k, v => [(k, v)]
  | (k1, v1) :: t, k, v =>
    if k1 = k then (k1, v) :: t else (k1, v1) :: setAssoc t k v

/-- Property assignment `o.k = v` on a value: `TypeError` on
`null`/`undefined` (strict mode), no-op shape on other primitives. -/
def setFieldEx : JSVal → String → JSVal → Except Err JSVal
  | .null, _, _ => .error .typeError
  | .undefined, _, _ => .error .typeError
  | .obj l, k, v => .ok (.obj (setAssoc l k v))
  | _, _, _ => .error .typeError

/-- Strict equality `v === "lit"` against a string literal. -/
def strictEqStr : JSVal → String → Bool
  | .str s, t => s = t
  | _, _ => false

/-- Embedding of `typeof v === 'object'` (true for objects and for `null`). -/
def typeofIsObject : JSVal → Bool
  | .obj _ => true
  | .null => true
  | _ => false

/-- The own properties of a value, as `_.extend` sees a source argument:
objects contribute their fields, everything else contributes none. -/
def fieldsOf : JSVal → List (String × JSVal)
  | .obj l => l
  | _ => []

/-- Embedding of `_.extend(dst, src)`: copy every property of `src` over `dst`,
left to right, later assignments overwriting earlier ones. -/
def extendMap (dst src : List (String × JSVal)) : List (String × JSVal) :=
  src.foldl (fun acc kv => setAssoc acc kv.1 kv.2) dst

/-- Embedding of `_.pick(obj, keys)`: keep, in key-list order, the listed properties
that the object actually has (keys are coerced to property strings). -/
def pickMap (o : List (String × JSVal)) (keys : List JSVal) : List (String × JSVal) :=
  keys.foldl
    (fun acc k =>
      let ks := jsPropKey k
      match alookup o ks with
      | some v => setAssoc acc ks v
      | none => acc)
    []

/-- Embedding of `_.isEmpty(v)` (underscore): `null`/`undefined`, the empty string and
the empty object are empty; numbers and booleans are empty too. -/
def jsIsEmpty : JSVal → Bool
  | .null => true
  | .undefined => true
  | .str s => s = ""
  | .obj l => l.isEmpty
  | .bool _ => true
  | .num _ => true
  | .nan => true

/-- A Backbone configuration model as the module sees it: its `name`
(the id attribute of the Configs collection), its `value` attribute, and
the id of the database (profile) it currently belongs to
(`model.database.id`, reassigned by `model.changeDB`). -/
structure Model where
  name : String
  value : JSVal
  databaseId : JSVal
  deriving Repr

/-- A call to the storage layer's save, as recorded by the embedding:
the model being saved and the attribute object passed with it. -/
structure SaveCall where
  model : Model
  data : JSVal
  deriving Repr

/-- Events the module triggers on its channels. -/
inductive Event where
  | changed (payload : List (String × JSVal))
  | removedProfile (name : JSVal)
  | collectionEmpty
  | resetAll
  | logError
  deriving Repr

/-- The module's surroundings.  Every field stands for code of the
repository that is outside `src/` or for an external collaborator;
each is modelled from the spec as an oracle.

* `defaultDB` — the fixed Default Profile id (`this.defaultDB`).
* `collection` — the in-memory collection (`this.collection`), absent
  before the first load.
* `configs` — Modelled from the spec: `collection.getConfigs()` of the
  missing `collections/configs.js`, "the full resolved configuration as
  a name→value mapping".
* `storGetModel` — Modelled from the spec: the base module's
  `getModel` (missing `collections/modules/module.js`), the Storage
  Collaborator lookup `get(nameOrFilter) -> Promise<Entry|undefined>`,
  taking the requested name and profile.
* `getDefault` — Modelled from the spec: `collection.getDefault(name)`
  of the missing collection, "default values for unknown entries";
  yields nothing for names with no built-in default.
* `storGetAll` — Modelled from the spec: the base module's `getAll`,
  fetching the entry set of the given (possibly `null`) profile.
* `storSaveModel` — Modelled from the spec: the base module's
  `saveModel`, `save(entry) -> Promise<void>`.
* `isPassword` — Modelled from the spec: `model.isPassword(data)` of
  the missing collection, deciding that an entry is password-typed.
* `sha256` — the Hash Collaborator (`Radio.request('encrypt','sha256')`).
* `hasNewConfigs`, `migrateFromLocal`, `createDefaults` — Modelled from
  the spec: the missing collection's bootstrap hooks
  (`hasUnboostrappedState`, legacy import, default population).
* `removeProfileStorage` — Modelled from the spec:
  `model.removeProfile(name, model)`, the Storage Collaborator's
  namespace removal. -/
structure Env where
  defaultDB : String
  collection : Option (List Model)
  configs : List (String × JSVal)
  storGetModel : JSVal → JSVal → Except Err (Option Model)
  getDefault : JSVal → Option Model
  storGetAll : JSVal → Except Err (List Model)
  storSaveModel : Model → JSVal → Except Err Unit
  isPassword : Model → JSVal → Bool
  sha256 : JSVal → Except Err JSVal
  hasNewConfigs : List Model → Bool
  migrateFromLocal : Except Err Unit
  createDefaults : Except Err Unit
  removeProfileStorage : JSVal → Except Err Unit

/-- The fixed Encryption Entry Set (`encrSet` in `_getEncryption`). -/
def encrSet : List String :=
  ["encrypt", "encryptPass", "encryptSalt",
   "encryptIter", "encryptTag", "encryptKeySize"]

/-- Embedding of `_.indexOf(encrSet, v) > -1`: strict equality of `v` against the six
strings, so only string values can ever match. -/
def inEncrSet : JSVal → Bool
  | .str s => encrSet.contains s
  | _ => false

/-- The per-element key of `_getEncryption`'s filter:
`key = (typeof value === 'object' ? value.name : key)` — reading `.name`
of a `null` element raises. -/
def elemKey (value key : JSVal) : Except Err JSVal :=
  if typeofIsObject value then fieldEx value "name" else .ok key

/-- The filter test of `_getEncryption`: the computed key or the element
itself strictly equals one of the six encryption names. -/
def encMatch (key value : JSVal) : Bool :=
  inEncrSet key || inEncrSet value

/-- An iterable as underscore's `_.filter` sees it inside this module:
either an array (keys are indices) or a plain object (keys are property
names). -/
inductive UColl where
  | arr (l : List JSVal)
  | omap (l : List (String × JSVal))

/-- Embedding of `_getEncryption` over an object, element by element. -/
def getEncrOMap : List (String × JSVal) → Except Err (List JSVal)
  | [] => .ok []
  | (k, v) :: t =>
    match elemKey v (.str k) with
    | .error e => .error e
    | .ok k' =>
      match getEncrOMap t with
      | .error e => .error e
      | .ok rest => .ok (if encMatch k' v then v :: rest else rest)

/-- Embedding of `_getEncryption` over an array, element by element (keys are the
numeric indices). -/
def getEncrArr : List JSVal → Int → Except Err (List JSVal)
  | [], _ => .ok []
  | v :: t, i =>
    match elemKey v (.num i) with
    | .error e => .error e
    | .ok k' =>
      match getEncrArr t (i + 1) with
      | .error e => .error e
      | .ok rest => .ok (if encMatch k' v then v :: rest else rest)

/-- Embedding of `_getEncryption(collection)` (configs.js 340–352): keep the elements
whose computed key, or which themselves, strictly equal one of the six
encryption names. -/
def getEncryption : UColl → Except Err (List JSVal)
  | .omap l => getEncrOMap l
  | .arr l => getEncrArr l 0

/-- Embedding of `_.pluck(list, 'name')`: read the `name` property of every element
(raising on `null`/`undefined` elements). -/
def pluckName : List JSVal → Except Err (List JSVal)
  | [] => .ok []
  | v :: t =>
    match fieldEx v "name" with
    | .error e => .error e
    | .ok n =>
      match pluckName t with
      | .error e => .error e
      | .ok rest => .ok (n :: rest)

/-- Embedding of `changed = _.pluck(this._getEncryption(objects), 'name')`
(configs.js 371): the names of the incoming entries classified as
encryption-related. -/
def encryptionNames (objects : List (String × JSVal)) : Except Err (List JSVal) :=
  match getEncryption (.omap objects) with
  | .error e => .error e
  | .ok kept => pluckName kept

/-- The `encryptPass` special case of `_backupEncryption`
(configs.js 383–386): when the batch carries a truthy `encryptPass`
whose `value`, compared via `toString()`, equals the currently stored
password, the snapshot's `encryptPass` is assigned `null`. -/
def passAdjust (configs objects changed : List (String × JSVal)) :
    Except Err (List (String × JSVal)) :=
  let op := alookupOrUndefined objects "encryptPass"
  if jsTruthy op then
    match jsToStringEx (alookupOrUndefined configs "encryptPass") with
    | .error e => .error e
    | .ok s1 =>
      match fieldEx op "value" with
      | .error e => .error e
      | .ok pv =>
        match jsToStringEx pv with
        | .error e => .error e
        | .ok s2 => .ok (if s1 = s2 then setAssoc changed "encryptPass" .null else changed)
  else .ok changed

/-- The freshly computed snapshot of `_backupEncryption`: the current
values of the changed encryption names (`_.pick(configs, changed)`,
configs.js 379–380) after the `encryptPass` special case. -/
def snapshotFinal (configs objects : List (String × JSVal)) (names : List JSVal) :
    Except Err (List (String × JSVal)) :=
  passAdjust configs objects (pickMap configs names)

/-- The injected entry (configs.js 392–395):
`{name: 'encryptBackup', value: _.extend({}, changed, configs.encryptBackup)}`. -/
def backupEntry (snap existing : List (String × JSVal)) : JSVal :=
  .obj [("name", .str "encryptBackup"), ("value", .obj (extendMap snap existing))]

/-- The existing backup value `configs.encryptBackup` as `_.extend`
consumes it: its fields when it is an object, nothing otherwise. -/
def existingBackup (configs : List (String × JSVal)) : List (String × JSVal) :=
  fieldsOf (alookupOrUndefined configs "encryptBackup")

/-- Embedding of `_backupEncryption(objects)` (configs.js 370–396): classify the
incoming batch; when encryption entries changed, snapshot their current
values, null out an unchanged password, extend the snapshot with the
existing backup (existing fields win) and inject the result into the
batch as its `encryptBackup` entry. -/
def backupEncryption (configs objects : List (String × JSVal)) :
    Except Err (List (String × JSVal)) :=
  match encryptionNames objects with
  | .error e => .error e
  | .ok names =>
    if names.isEmpty then .ok objects
    else
      match snapshotFinal configs objects names with
      | .error e => .error e
      | .ok snap =>
        .ok (setAssoc objects "encryptBackup" (backupEntry snap (existingBackup configs)))

/-- Embedding of `getModel(options)` (configs.js 168–184): delegate to the base
module's lookup; when it yields nothing, fall back to the collection's
built-in default for that name. -/
def getModel (env : Env) (name profile : JSVal) : Except Err (Option Model) :=
  match env.storGetModel name profile with
  | .error e => .error e
  | .ok (some m) => .ok (some m)
  | .ok none => .ok (env.getDefault name)

/-- Embedding of `saveModel(model, data)` (configs.js 77–90): non-password data is
saved as-is; password data has its `value` replaced by its sha256 digest
first.  Returns the outcome together with the storage save calls made. -/
def saveModel (env : Env) (model : Model) (data : JSVal) :
    Except Err Unit × List SaveCall :=
  if !env.isPassword model data then
    (env.storSaveModel model data, [⟨model, data⟩])
  else
    match fieldEx data "value" with
    | .error e => (.error e, [])
    | .ok v =>
      match env.sha256 v with
      | .error e => (.error e, [])
      | .ok hv =>
        match setFieldEx data "value" hv with
        | .error e => (.error e, [])
        | .ok data' => (env.storSaveModel model data', [⟨model, data'⟩])

/-- Embedding of `saveObject(object, useDefault)` (configs.js 132–147): resolve the
model for `object.name`; when none resolves, do nothing; when the name
is `useDefaultConfigs`, save to the caller-supplied `useDefault` model
instead. -/
def saveObject (env : Env) (object : JSVal) (useDefault : Model) :
    Except Err Unit × List SaveCall :=
  match fieldEx object "name" with
  | .error e => (.error e, [])
  | .ok nameV =>
    match getModel env nameV .undefined with
    | .error e => (.error e, [])
    | .ok none => (.ok (), [])
    | .ok (some model) =>
      let model := if strictEqStr nameV "useDefaultConfigs" then useDefault else model
      saveModel env model object

/-- Embedding of `_backupEncrypt(profile)` (configs.js 357–365): snapshot the current
encryption configs of the live collection into its `encryptBackup`
model, after moving that model to `profile`. -/
def backupEncrypt (env : Env) (profile : JSVal) :
    Except Err Unit × List SaveCall :=
  match env.collection with
  | none => (.error .typeError, [])
  | some col =>
    match getEncryption (.arr (col.map (fun m => .str m.name))) with
    | .error e => (.error e, [])
    | .ok encrypt =>
      match col.find? (fun m => m.name = "encryptBackup") with
      | none => (.error .typeError, [])
      | some model =>
        let model := { model with databaseId := profile }
        saveModel env model (.obj [("value", .obj (pickMap env.configs encrypt))])

/-- An incoming batch: either an array of entry objects or an object
already keyed by name (configs.js 109). -/
inductive BatchInput where
  | arr (l : List JSVal)
  | omap (l : List (String × JSVal))

/-- Property read on the raw batch (`objects.useDefaultConfigs`): arrays
have no such property. -/
def batchField (objects : BatchInput) (k : String) : JSVal :=
  match objects with
  | .arr _ => .undefined
  | .omap l => alookupOrUndefined l k

/-- Embedding of `objects = (_.isArray(objects) ? _.indexBy(objects, 'name') : objects)`
(configs.js 109). -/
def normalizeBatch : BatchInput → Except Err (List (String × JSVal))
  | .omap l => .ok l
  | .arr l =>
    match indexByNameFold l [] with
    | .error e => .error e
    | .ok m => .ok m
where
  /-- fold of `_.indexBy`: `result[String(el.name)] = el`, in order. -/
  indexByNameFold : List JSVal → List (String × JSVal) →
      Except Err (List (String × JSVal))
    | [], acc => .ok acc
    | v :: t, acc =>
      match fieldEx v "name" with
      | .error e => .error e
      | .ok nameV => indexByNameFold t (setAssoc acc (jsPropKey nameV) v)

/-- The synchronous head of `saveObjects` after the optional profile
backup (configs.js 109–112): normalize the batch and run
`_backupEncryption` on it, yielding the batch that is actually saved
and announced. -/
def saveObjectsPrep (env : Env) (objects : BatchInput) :
    Except Err (List (String × JSVal)) :=
  match normalizeBatch objects with
  | .error e => .error e
  | .ok omap => backupEncryption env.configs omap

/-- The outcome of a batched save: the operation's result, the storage
save calls that were issued, and the events triggered. -/
structure Outcome where
  res : Except Err Unit
  saves : List SaveCall
  events : List Event
  deriving Repr

/-- The first rejection among the joined promises of `Q.all`. -/
def firstError : List (Except Err Unit) → Option Err
  | [] => none
  | .ok _ :: t => firstError t
  | .error e :: _ => some e

/-- The per-entry save results of a normalized batch. -/
def entryResults (env : Env) (objs : List (String × JSVal)) (useDefault : Model) :
    List (Except Err Unit × List SaveCall) :=
  objs.map (fun kv => saveObject env kv.2 useDefault)

/-- Embedding of `saveObjects(objects, useDefault)` (configs.js 97–125): optionally
back up the current profile's encryption configs, normalize the batch,
inject the encryption backup, issue every per-entry save, and — only
when every joined promise succeeded — trigger a single `changed` event
carrying the full normalized batch.  Synchronous throws of the
normalization/injection step are modelled as rejections of the batch
(they likewise produce no `changed` event). -/
def saveObjects (env : Env) (objects : BatchInput) (useDefault : Model) : Outcome :=
  let doBackup := jsTruthy (batchField objects "useDefaultConfigs")
  let backup :=
    if doBackup then backupEncrypt env useDefault.databaseId else (.ok (), [])
  match saveObjectsPrep env objects with
  | .error e => ⟨.error e, backup.2, []⟩
  | .ok objs =>
    let outs := entryResults env objs useDefault
    let saves := backup.2 ++ (outs.map Prod.snd).flatten
    match firstError (backup.1 :: outs.map Prod.fst) with
    | some e => ⟨.error e, saves, []⟩
    | none => ⟨.ok (), saves, [.changed objs]⟩

/-- Embedding of `removeProfile(model, name)` (configs.js 65–70): delegate the
removal, then — only on success — trigger `removed:profile` with the
profile name. -/
def removeProfile (env : Env) (name : JSVal) : Except Err Unit × List Event :=
  match env.removeProfileStorage name with
  | .ok _ => (.ok (), [.removedProfile name])
  | .error e => (.error e, [])

/-- Embedding of `getObject()` (configs.js 160–162): the resolved configuration as a
name→value mapping (`collection.getConfigs()`, modelled from the spec
as the environment's `configs` field). -/
def getObject (env : Env) : List (String × JSVal) :=
  env.configs

/-- Embedding of `getConfig(name, defaultValue)` (configs.js 152–155):
`var config = this.getObject()[name]; return config ? config : defaultValue`. -/
def getConfig (env : Env) (name defaultValue : JSVal) : JSVal :=
  let config := alookupOrUndefined (getObject env) (jsPropKey name)
  if jsTruthy config then config else defaultValue

/-- Embedding of `a || b`. -/
def jsOr (a b : JSVal) : JSVal :=
  if jsTruthy a then a else b

/-- The profile-resolution decision of `getAll` (configs.js 206–207):
`if (!model || Number(model.get('value'))) { options.profile = null; }` —
the effective profile is `null` (the Default Profile) when the
`useDefaultConfigs` model is absent or its value converts to a truthy
number, and the requested one otherwise. -/
def resolveUseDefault (model : Option Model) (requested : JSVal) : JSVal :=
  match model with
  | none => .null
  | some m => if numTruthy (jsToNumber m.value) then .null else requested

/-- The load steps `getAll` can perform, recorded in order. -/
inductive Step where
  | lookupUseDefault (profile : JSVal)
  | fetchAll (profile : JSVal)
  | checkBackup (profile : JSVal)
  | bootstrap
  | logError
  deriving Repr

/-- Embedding of `_checkBackup(profile)` (configs.js 280–308): fetch the resolved
`encryptBackup`; when the load targets a non-default profile and that
backup is empty, fetch the profile's own backup and — when non-empty —
claim it for `profile` (`backup.set(model.toJSON()); backup.changeDB`).
The result records the claimed backup model, when any. -/
def checkBackupStep (env : Env) (profile : JSVal) :
    Except Err (Option Model) :=
  match getModel env (.str "encryptBackup") .undefined with
  | .error e => .error e
  | .ok backup =>
    if strictEqStr profile env.defaultDB
        || (match backup with
            | none => true
            | some b => !(jsIsEmpty b.value)) then
      .ok none
    else
      match getModel env (.str "encryptBackup") profile with
      | .error e => .error e
      | .ok none => .error .typeError
      | .ok (some m) =>
        if !(jsIsEmpty m.value) then
          .ok (some { m with databaseId := profile })
        else
          .ok none

/-- Embedding of `_createDefault(options)` (configs.js 314–334): when the collection
has unbootstrapped state, trigger `collection:empty` if it is empty,
migrate legacy settings in, populate the defaults, trigger `reset:all` and
re-fetch; otherwise resolve with the collection unchanged. -/
def createDefaultStep (env : Env) (col : List Model) (effProfile : JSVal) :
    Except Err (List Model) × List Event :=
  if !env.hasNewConfigs col then (.ok col, [])
  else
    let evs := if col.length = 0 then [Event.collectionEmpty] else []
    match env.migrateFromLocal with
    | .error e => (.error e, evs)
    | .ok _ =>
      match env.createDefaults with
      | .error e => (.error e, evs)
      | .ok _ =>
        match env.storGetAll effProfile with
        | .error e => (.error e, evs ++ [.resetAll])
        | .ok col' => (.ok col', evs ++ [.resetAll])

/-- The result of a top-level load: its resolved value (`none` when an
error was swallowed, so the promise resolved with `undefined`), the
steps performed and the events triggered. -/
structure LoadOut where
  res : Except Err (Option (List Model))
  steps : List Step
  events : List Event
  deriving Repr

/-- The promise chain of `getAll` (configs.js 203–217), before the
final `fail` handler: resolve the profile from `useDefaultConfigs`,
fetch the collection for the effective profile, run the backup check
for the requested-or-default profile, then bootstrap defaults. -/
def getAllChain (env : Env) (profileOpt : JSVal) : LoadOut :=
  let profile := jsOr profileOpt (.str env.defaultDB)
  match getModel env (.str "useDefaultConfigs") profileOpt with
  | .error e => ⟨.error e, [.lookupUseDefault profileOpt], []⟩
  | .ok m =>
    let eff := resolveUseDefault m profileOpt
    match env.storGetAll eff with
    | .error e => ⟨.error e, [.lookupUseDefault profileOpt, .fetchAll eff], []⟩
    | .ok col =>
      match checkBackupStep env profile with
      | .error e =>
        ⟨.error e,
         [.lookupUseDefault profileOpt, .fetchAll eff, .checkBackup profile], []⟩
      | .ok _ =>
        let cd := createDefaultStep env col eff
        ⟨(cd.1.map some : Except Err (Option (List Model))),
         [.lookupUseDefault profileOpt, .fetchAll eff, .checkBackup profile,
          .bootstrap],
         cd.2⟩

/-- Embedding of `this.collection && this.collection.length` (configs.js 191). -/
def cacheHit (env : Env) : Bool :=
  match env.collection with
  | some (_ :: _) => true
  | _ => false

/-- Embedding of `getAll(options)` (configs.js 190–221): answer from the in-memory
collection when it is non-empty; otherwise run the load chain, and let
the final `fail` handler swallow any rejection (logging it), so the
returned promise always resolves. -/
def getAll (env : Env) (profileOpt : JSVal) : LoadOut :=
  if cacheHit env then
    ⟨.ok (some ((env.collection).getD [])), [], []⟩
  else
    match getAllChain env profileOpt with
    | ⟨.error _, st, evs⟩ => ⟨.ok none, st ++ [.logError], evs⟩
    | ⟨.ok c, st, evs⟩ => ⟨.ok c, st, evs⟩

/-! ### General lemmas about the embedded helpers -/

theorem alookup_setAssoc (m : List (String × JSVal)) (k : String) (v : JSVal)
    (k' : String) :
    alookup (setAssoc m k v) k' = if k = k' then some v else alookup m k' := by
  induction m with
  | nil =>
    by_cases h : k = k' <;> simp [setAssoc, alookup, h]
  | cons kv t ih =>
    obtain ⟨k1, v1⟩ := kv
    by_cases h1 : k1 = k
    · subst h1
      by_cases h : k1 = k' <;> simp [setAssoc, alookup, h]
    · by_cases h : k1 = k'
      · subst h
        have hkk : ¬ k = k1 := fun hh => h1 hh.symm
        simp [setAssoc, alookup, h1, hkk]
      · simp [setAssoc, alookup, h1, h, ih]

theorem alookup_extendMap_of_none (a : List (String × JSVal))
    (b : List (String × JSVal)) (k : String) (h : alookup b k = none) :
    alookup (extendMap a b) k = alookup a k := by
  induction b generalizing a with
  | nil => rfl
  | cons kv t ih =>
    obtain ⟨k1, v1⟩ := kv
    have h1 : ¬ k1 = k := by
      intro hh
      simp [alookup, hh] at h
    have ht : alookup t k = none := by
      simpa [alookup, h1] using h
    have : extendMap a ((k1, v1) :: t) = extendMap (setAssoc a k1 v1) t := rfl
    rw [this, ih _ ht, alookup_setAssoc]
    simp [h1]

theorem alookup_eq_none_of_not_mem (l : List (String × JSVal)) (k : String)
    (h : k ∉ l.map Prod.fst) : alookup l k = none := by
  induction l with
  | nil => rfl
  | cons kv t ih =>
    obtain ⟨k1, v1⟩ := kv
    simp only [List.map_cons, List.mem_cons] at h
    push_neg at h
    have hne : ¬ k1 = k := fun hh => h.1 hh.symm
    simp [alookup, hne, ih h.2]

theorem alookup_extendMap_of_some (a : List (String × JSVal))
    (b : List (String × JSVal)) (k : String) (w : JSVal)
    (hnd : (b.map Prod.fst).Nodup) (h : alookup b k = some w) :
    alookup (extendMap a b) k = some w := by
  induction b generalizing a with
  | nil => simp [alookup] at h
  | cons kv t ih =>
    obtain ⟨k1, v1⟩ := kv
    rw [List.map_cons] at hnd
    have hnd' := List.nodup_cons.mp hnd
    have hstep : extendMap a ((k1, v1) :: t) = extendMap (setAssoc a k1 v1) t := rfl
    rw [hstep]
    by_cases h1 : k1 = k
    · subst h1
      simp [alookup] at h
      subst h
      have hnotin : alookup t k1 = none :=
        alookup_eq_none_of_not_mem t k1 hnd'.1
      rw [alookup_extendMap_of_none _ _ _ hnotin, alookup_setAssoc]
      simp
    · have ht : alookup t k = some w := by
        simpa [alookup, h1] using h
      exact ih _ hnd'.2 ht

theorem firstError_eq_none_iff (l : List (Except Err Unit)) :
    firstError l = none ↔ ∀ r ∈ l, r = .ok () := by
  induction l with
  | nil => simp [firstError]
  | cons r t ih =>
    cases r with
    | ok u => cases u; simp [firstError, ih]
    | error e => simp [firstError]

theorem firstError_of_error (l : List (Except Err Unit))
    (h : ∃ r ∈ l, ∃ e, r = .error e) : ∃ e, firstError l = some e := by
  induction l with
  | nil => simp at h
  | cons r t ih =>
    cases r with
    | ok u =>
      cases u
      refine ih ?_
      obtain ⟨r', hr', e, he⟩ := h
      rcases List.mem_cons.mp hr' with h1 | h1
      · rw [h1] at he
        cases he
      · exact ⟨r', h1, e, he⟩
    | error e => exact ⟨e, rfl⟩

/-! ### Concrete environments used by witnesses and counterexamples -/

/-- A quiet environment: Default Profile `notes-db`, no cached
collection, no stored entries, every collaborator call succeeds
trivially. -/
def envA : Env where
  defaultDB := "notes-db"
  collection := none
  configs := []
  storGetModel := fun _ _ => .ok none
  getDefault := fun _ => none
  storGetAll := fun _ => .ok []
  storSaveModel := fun _ _ => .ok ()
  isPassword := fun _ _ => false
  sha256 := fun v => .ok v
  hasNewConfigs := fun _ => false
  migrateFromLocal := .ok ()
  createDefaults := .ok ()
  removeProfileStorage := fun _ => .ok ()

/-- Environment `envA` with a storage lookup that always fails. -/
def envFail : Env :=
  { envA with storGetModel := fun _ _ => .error (.external "storage down") }

/-- Environment `envA` with one resolved config whose value is the empty string. -/
def envFalsy : Env :=
  { envA with configs := [("x", .str "")] }

/-- Environment `envA` with a cached non-empty collection. -/
def envCached : Env :=
  { envA with collection := some [⟨"appVersion", .str "1", .str "notes-db"⟩] }

/-- Environment `envA` with a storage model resolving for every name. -/
def envSave : Env :=
  { envA with storGetModel := fun n _ => .ok (some ⟨jsPropKey n, .null, .str "notes-db"⟩) }

/-- Environment `envA` whose namespace removal always fails. -/
def envRemoveFail : Env :=
  { envA with removeProfileStorage := fun _ => .error (.external "locked") }

/-! ### C1 — profile resolution on load -/

/-- C1 (counterexample): the claim says that when the requested
profile's `useDefaultConfigs` entry is absent the effective profile is
the requested one; but `getAll` (configs.js 206) sets the profile to
`null` — the Default Profile — exactly in that case: with no model for
`useDefaultConfigs` and requested profile `work`, the effective profile
is `null`, not `work`, and the load fetches the Default Profile's
configs. -/
theorem c1_counterexample :
    resolveUseDefault none (.str "work") = .null
    ∧ resolveUseDefault none (.str "work") ≠ .str "work"
    ∧ Step.fetchAll .null ∈ (getAll envA (.str "work")).steps
    ∧ Step.fetchAll (.str "work") ∉ (getAll envA (.str "work")).steps := by
  refine ⟨rfl, ?_, ?_, ?_⟩
  · intro h
    exact JSVal.noConfusion h
  · show Step.fetchAll .null ∈
      [Step.lookupUseDefault (.str "work"), Step.fetchAll .null,
       Step.checkBackup (.str "work"), Step.bootstrap]
    simp
  · show Step.fetchAll (.str "work") ∉
      [Step.lookupUseDefault (.str "work"), Step.fetchAll .null,
       Step.checkBackup (.str "work"), Step.bootstrap]
    intro h
    simp at h

/-- C1 (amended): when loading configs for a requested profile, `getAll`
looks up that profile's `useDefaultConfigs` model; the effective profile
becomes the Default Profile (`null`) when the model is absent **or**
when its value converts to a truthy Number, and stays the requested one
only when the model is present with a Number-falsy value; the fetch step
then uses that effective profile. -/
theorem c1_profile_resolution (env : Env) (req : JSVal) (m : Option Model)
    (hcache : cacheHit env = false)
    (hm : getModel env (.str "useDefaultConfigs") req = .ok m) :
    Step.fetchAll (resolveUseDefault m req) ∈ (getAll env req).steps
    ∧ (m = none → resolveUseDefault m req = .null)
    ∧ (∀ mm, m = some mm → numTruthy (jsToNumber mm.value) = true →
        resolveUseDefault m req = .null)
    ∧ (∀ mm, m = some mm → numTruthy (jsToNumber mm.value) = false →
        resolveUseDefault m req = req) := by
  refine ⟨?_, ?_, ?_, ?_⟩
  · have hsteps : Step.fetchAll (resolveUseDefault m req) ∈ (getAllChain env req).steps := by
      unfold getAllChain
      rw [hm]
      cases hga : env.storGetAll (resolveUseDefault m req) with
      | error e => simp [hga]
      | ok col =>
        cases hcb : checkBackupStep env (jsOr req (.str env.defaultDB)) with
        | error e => simp [hga, hcb]
        | ok mig => simp [hga, hcb]
    have hwrap : (getAll env req).steps = (getAllChain env req).steps
        ∨ (getAll env req).steps = (getAllChain env req).steps ++ [.logError] := by
      unfold getAll
      rw [hcache]
      cases hch : getAllChain env req with
      | mk r st evs =>
        cases r with
        | error e => right; simp
        | ok c => left; simp
    cases hwrap with
    | inl hw => rw [hw]; exact hsteps
    | inr hw => rw [hw]; exact List.mem_append_left _ hsteps
  · intro h
    rw [h]
    rfl
  · intro mm h ht
    rw [h]
    simp [resolveUseDefault, ht]
  · intro mm h ht
    rw [h]
    simp [resolveUseDefault, ht]

/-- C1 witness: in the quiet environment the `useDefaultConfigs` model
resolves to nothing for profile `work`, and the fetch indeed targets the
Default Profile. -/
theorem c1_profile_resolution_witness :
    Step.fetchAll .null ∈ (getAll envA (.str "work")).steps := by
  have h := c1_profile_resolution envA (.str "work") none rfl rfl
  exact h.1

/-! ### C5 — read paths never reject -/

/-- C5 (confirmed): whatever the environment and requested profile, and
whatever errors the collaborators raise during profile resolution, the
backup check or the bootstrap, `getAll` resolves: its final `fail`
handler swallows the rejection, logs it, and the promise fulfills (with
`undefined`). -/
theorem c5_read_never_rejects (env : Env) (p : JSVal) :
    (∃ v, (getAll env p).res = .ok v)
    ∧ (∀ e st evs, getAllChain env p = ⟨.error e, st, evs⟩ →
        cacheHit env = false →
        (getAll env p).res = .ok none
        ∧ (getAll env p).steps = st ++ [.logError]) := by
  constructor
  · unfold getAll
    cases hc : cacheHit env with
    | true => exact ⟨_, rfl⟩
    | false =>
      simp only [Bool.false_eq_true, if_false]
      cases hch : getAllChain env p with
      | mk r st evs =>
        cases r with
        | error e => exact ⟨none, rfl⟩
        | ok c => exact ⟨c, rfl⟩
  · intro e st evs hch hc
    unfold getAll
    rw [hc, hch]
    simp

/-- C5 witness: with the storage lookup failing outright, the chain
rejects at the first step yet `getAll` resolves (with `undefined`) and
logs the error. -/
theorem c5_read_never_rejects_witness :
    (getAll envFail (.str "work")).res = .ok none
    ∧ (getAll envFail (.str "work")).steps
        = [Step.lookupUseDefault (.str "work"), Step.logError] := by
  have h := (c5_read_never_rejects envFail (.str "work")).2
      (.external "storage down") [.lookupUseDefault (.str "work")] [] rfl rfl
  exact ⟨h.1, h.2⟩

/-! ### C6 — removeProfile event ordering -/

/-- C6 (confirmed): `removeProfile` triggers `removed:profile` with the
profile name exactly when the underlying namespace removal succeeded;
when the removal fails the operation rejects with that error and no
event fires. -/
theorem c6_remove_profile (env : Env) (name : JSVal) :
    (env.removeProfileStorage name = .ok () →
      removeProfile env name = (.ok (), [.removedProfile name]))
    ∧ (∀ e, env.removeProfileStorage name = .error e →
        removeProfile env name = (.error e, [])) := by
  constructor
  · intro h
    unfold removeProfile
    rw [h]
  · intro e h
    unfold removeProfile
    rw [h]

/-- C6 witness: removing `work` succeeds in the quiet environment and
emits the event with payload `work`; in the failing environment nothing
is emitted and the error propagates. -/
theorem c6_remove_profile_witness :
    removeProfile envA (.str "work") = (.ok (), [.removedProfile (.str "work")])
    ∧ removeProfile envRemoveFail (.str "work")
        = (.error (.external "locked"), []) := by
  exact ⟨(c6_remove_profile envA (.str "work")).1 rfl,
         (c6_remove_profile envRemoveFail (.str "work")).2 (.external "locked") rfl⟩

/-! ### C7 — getConfig fallback -/

/-- C7 (counterexample): the claim says the fallback is returned exactly
when the name is absent; but `getConfig` (configs.js 154) tests the
stored value for truthiness, so a *present* entry whose value is the
empty string also yields the fallback. -/
theorem c7_counterexample :
    alookup (getObject envFalsy) "x" = some (.str "")
    ∧ getConfig envFalsy (.str "x") (.str "fb") = .str "fb"
    ∧ JSVal.str "fb" ≠ JSVal.str "" := by
  refine ⟨rfl, rfl, ?_⟩
  intro h
  have h' : "fb" = "" := by injection h
  exact absurd h' (by decide)

/-- C7 (amended): `getConfig(name, fallback)` returns the stored value
when the name resolves to a truthy value, and the fallback both when the
name is absent and when the stored value is falsy. -/
theorem c7_get_config (env : Env) (name : String) (fb : JSVal) :
    (alookup (getObject env) name = none → getConfig env (.str name) fb = fb)
    ∧ (∀ v, alookup (getObject env) name = some v → jsTruthy v = true →
        getConfig env (.str name) fb = v)
    ∧ (∀ v, alookup (getObject env) name = some v → jsTruthy v = false →
        getConfig env (.str name) fb = fb) := by
  refine ⟨?_, ?_, ?_⟩
  · intro h
    unfold getConfig alookupOrUndefined
    simp [jsPropKey, h, jsTruthy]
  · intro v h ht
    unfold getConfig alookupOrUndefined
    simp [jsPropKey, h, ht]
  · intro v h ht
    unfold getConfig alookupOrUndefined
    simp [jsPropKey, h, ht]

/-- C7 witness: in the environment storing `x = ""`, the fallback is
returned for the present-but-falsy `x` and for the absent `y`. -/
theorem c7_get_config_witness :
    getConfig envFalsy (.str "x") (.str "fb") = .str "fb"
    ∧ getConfig envFalsy (.str "y") (.str "fb") = .str "fb" := by
  exact ⟨(c7_get_config envFalsy "x" (.str "fb")).2.2 (.str "") rfl rfl,
         (c7_get_config envFalsy "y" (.str "fb")).1 rfl⟩

/-! ### C10 — cached collection short-circuits the load -/

/-- C10 (confirmed): when the in-memory collection is non-empty,
`getAll` resolves with it immediately: no `useDefaultConfigs` lookup, no
fetch, no backup check, no bootstrap, no events — the stored state is
untouched and the profile redirection decision is not revisited. -/
theorem c10_cached_collection (env : Env) (p : JSVal) (m : Model) (l : List Model)
    (h : env.collection = some (m :: l)) :
    getAll env p = ⟨.ok (some (m :: l)), [], []⟩ := by
  have hc : cacheHit env = true := by
    unfold cacheHit
    rw [h]
  unfold getAll
  rw [hc, h]
  simp

/-- C10 witness: the cached environment answers from its collection with
an empty step and event trace. -/
theorem c10_cached_collection_witness :
    getAll envCached (.str "work")
      = ⟨.ok (some [⟨"appVersion", .str "1", .str "notes-db"⟩]), [], []⟩ :=
  c10_cached_collection envCached (.str "work")
    ⟨"appVersion", .str "1", .str "notes-db"⟩ [] rfl

/-! ### C2 — backup-merge monotonicity -/

/-- C2 (confirmed): for a batch that changed encryption entries, the
injected `encryptBackup` value is `_.extend({}, snapshot, existing)` —
every field already present in the existing backup wins over the freshly
computed snapshot, fields absent from the existing backup are filled
from the snapshot, and on the claim's concrete example the merge of
snapshot `{a:"new", b:"x"}` with existing `{a:"old"}` is
`{a:"old", b:"x"}`. -/
theorem c2_backup_merge (configs objects : List (String × JSVal))
    (names : List JSVal) (snap : List (String × JSVal))
    (hn : encryptionNames objects = .ok names) (hne : names ≠ [])
    (hs : snapshotFinal configs objects names = .ok snap)
    (hnd : ((existingBackup configs).map Prod.fst).Nodup) :
    backupEncryption configs objects
      = .ok (setAssoc objects "encryptBackup"
          (backupEntry snap (existingBackup configs)))
    ∧ (∀ k w, alookup (existingBackup configs) k = some w →
        alookup (extendMap snap (existingBackup configs)) k = some w)
    ∧ (∀ k, alookup (existingBackup configs) k = none →
        alookup (extendMap snap (existingBackup configs)) k = alookup snap k)
    ∧ extendMap [("a", .str "new"), ("b", .str "x")] [("a", .str "old")]
        = [("a", .str "old"), ("b", .str "x")] := by
  refine ⟨?_, ?_, ?_, rfl⟩
  · unfold backupEncryption
    rw [hn]
    cases names with
    | nil => exact absurd rfl hne
    | cons n t =>
      simp [hs]
  · intro k w h
    exact alookup_extendMap_of_some _ _ _ _ hnd h
  · intro k h
    exact alookup_extendMap_of_none _ _ _ h

/-- Concrete batch changing `encryptSalt` and `encryptIter` while the
existing backup already pins `encryptSalt`. -/
def configsC2 : List (String × JSVal) :=
  [("encryptSalt", .str "new"), ("encryptIter", .str "x"),
   ("encryptBackup", .obj [("encryptSalt", .str "old")])]

/-- The incoming batch for the C2 witness. -/
def objectsC2 : List (String × JSVal) :=
  [("encryptSalt", .obj [("name", .str "encryptSalt"), ("value", .str "s2")]),
   ("encryptIter", .obj [("name", .str "encryptIter"), ("value", .str "i2")])]

/-- C2 witness: the merged backup keeps the old `encryptSalt` and gains
the current `encryptIter`. -/
theorem c2_backup_merge_witness :
    backupEncryption configsC2 objectsC2
      = .ok (objectsC2 ++
          [("encryptBackup",
            .obj [("name", .str "encryptBackup"),
                  ("value", .obj [("encryptSalt", .str "old"),
                                  ("encryptIter", .str "x")])])])
    ∧ alookup (extendMap [("encryptSalt", .str "new"), ("encryptIter", .str "x")]
          (existingBackup configsC2)) "encryptSalt" = some (.str "old") := by
  have h := c2_backup_merge configsC2 objectsC2
      [.str "encryptSalt", .str "encryptIter"]
      [("encryptSalt", .str "new"), ("encryptIter", .str "x")]
      rfl (by intro hh; cases hh) rfl (by decide)
  exact ⟨h.1, h.2.1 "encryptSalt" (.str "old") rfl⟩

/-! ### C3 — unchanged password handling -/

/-- The stored configuration for the C3 scenario: the current password
is `secret` and the existing backup is empty. -/
def configsC3 : List (String × JSVal) :=
  [("encryptPass", .str "secret"), ("encryptBackup", .obj [])]

/-- The incoming batch for the C3 scenario: it re-sends the same
password `secret`. -/
def objectsC3 : List (String × JSVal) :=
  [("encryptPass", .obj [("name", .str "encryptPass"), ("value", .str "secret")])]

/-- C3 (counterexample): the claim says the `encryptPass` field is
*dropped* from the freshly computed snapshot so the injected backup does
not contain an `encryptPass` field; but configs.js 385 assigns
`changed.encryptPass = null`, so the snapshot still carries the key
(with value `null`) and the injected `encryptBackup` value is
`{encryptPass: null}` — the field is present. -/
theorem c3_counterexample :
    snapshotFinal configsC3 objectsC3 [.str "encryptPass"]
      = .ok [("encryptPass", .null)]
    ∧ backupEncryption configsC3 objectsC3
      = .ok (objectsC3 ++
          [("encryptBackup",
            .obj [("name", .str "encryptBackup"),
                  ("value", .obj [("encryptPass", .null)])])])
    ∧ alookup [("encryptPass", JSVal.null)] "encryptPass" ≠ none := by
  refine ⟨rfl, rfl, ?_⟩
  intro h
  simp [alookup] at h

/-- C3 (amended): when the batch carries a truthy `encryptPass` whose
`value`, compared as text, equals the currently stored password, the
snapshot's `encryptPass` is set to `null` rather than dropped; the
injected backup's `encryptPass` therefore is the existing backup's value
when the existing backup has one, and `null` otherwise — never the
freshly read current password. -/
theorem c3_unchanged_password (configs objects : List (String × JSVal))
    (names : List JSVal) (op pv : JSVal) (pass : String)
    (hop : alookupOrUndefined objects "encryptPass" = op)
    (htr : jsTruthy op = true)
    (hcs : jsToStringEx (alookupOrUndefined configs "encryptPass") = .ok pass)
    (hpv : fieldEx op "value" = .ok pv)
    (hps : jsToStringEx pv = .ok pass) :
    snapshotFinal configs objects names
      = .ok (setAssoc (pickMap configs names) "encryptPass" .null)
    ∧ alookup (setAssoc (pickMap configs names) "encryptPass" .null) "encryptPass"
      = some .null
    ∧ (∀ existing : List (String × JSVal), (existing.map Prod.fst).Nodup →
        alookup (extendMap (setAssoc (pickMap configs names) "encryptPass" .null)
            existing) "encryptPass"
          = some ((alookup existing "encryptPass").getD .null)) := by
  have hB : alookup (setAssoc (pickMap configs names) "encryptPass" .null)
      "encryptPass" = some .null := by
    rw [alookup_setAssoc]
    simp
  refine ⟨?_, hB, ?_⟩
  · unfold snapshotFinal passAdjust
    rw [hop]
    simp only [htr, if_true]
    rw [hcs, hpv]
    simp [hps]
  · intro existing hnd
    cases h : alookup existing "encryptPass" with
    | some w =>
      rw [alookup_extendMap_of_some _ _ _ _ hnd h]
      rfl
    | none =>
      rw [alookup_extendMap_of_none _ _ _ h, hB]
      rfl

/-- C3 witness: re-sending the current password `secret` nulls the
snapshot's `encryptPass`; merged against the empty existing backup the
injected field is `null`. -/
theorem c3_unchanged_password_witness :
    snapshotFinal configsC3 objectsC3 [.str "encryptPass"]
      = .ok [("encryptPass", .null)]
    ∧ alookup (extendMap [("encryptPass", JSVal.null)] ([] : List (String × JSVal)))
        "encryptPass" = some .null := by
  have h := c3_unchanged_password configsC3 objectsC3 [.str "encryptPass"]
      (.obj [("name", .str "encryptPass"), ("value", .str "secret")])
      (.str "secret") "secret" rfl rfl rfl rfl rfl
  exact ⟨h.1, by simpa using h.2.2 [] (by simp)⟩

/-! ### C9 — classification of encryption-related entries -/

/-- The batch of the C9 scenario: a non-encryption entry whose `value`
is the string `encrypt`. -/
def objectsC9 : List (String × JSVal) :=
  [("theme", .obj [("name", .str "theme"), ("value", .str "encrypt")])]

/-- C9 (counterexample): the claim says an entry is classified as
encryption-related when its name **or its value** is one of the six
names, so `{name:"theme", value:"encrypt"}` should trigger an
`encryptBackup` injection; but `_.indexOf(encrSet, value)` compares the
whole entry object (not its `value` field) against the six strings, so
the entry is not classified, `_backupEncryption` leaves the batch
unchanged and nothing is injected. -/
theorem c9_counterexample :
    getEncryption (.omap objectsC9) = .ok []
    ∧ backupEncryption [] objectsC9 = .ok objectsC9
    ∧ alookup objectsC9 "encryptBackup" = none := by
  exact ⟨rfl, rfl, rfl⟩

/-- Elements whose computed key is outside the encryption set and which
are not themselves one of the six strings are never kept. -/
theorem getEncrOMap_eq_nil (l : List (String × JSVal))
    (h : ∀ kv ∈ l, ∃ k', elemKey kv.2 (.str kv.1) = .ok k'
          ∧ encMatch k' kv.2 = false) :
    getEncrOMap l = .ok [] := by
  induction l with
  | nil => rfl
  | cons kv t ih =>
    obtain ⟨k', hk, hm⟩ := h kv (List.mem_cons_self kv t)
    have ht := ih (fun x hx => h x (List.mem_cons_of_mem kv hx))
    unfold getEncrOMap
    rw [hk, ht]
    simp [hm]

/-- C9 (amended): an element is classified as encryption-related when
its computed key — the `name` field for object-typed elements, the
iteration key otherwise — is one of the six names, or when the element
itself (as a value, e.g. a plain string in a list of names) strictly
equals one of them; an entry object's `value` field is never consulted,
so a batch of entries with non-encryption names is left unchanged and in
particular `{name:"theme", value:w}` triggers no injection whatever `w`
is. -/
theorem c9_classification (configs objects : List (String × JSVal))
    (h : ∀ kv ∈ objects, ∃ k', elemKey kv.2 (.str kv.1) = .ok k'
          ∧ encMatch k' kv.2 = false) :
    getEncryption (.omap objects) = .ok []
    ∧ backupEncryption configs objects = .ok objects
    ∧ (∀ (k nm : String) (w : JSVal), encrSet.contains nm = false →
        backupEncryption configs [(k, .obj [("name", .str nm), ("value", w)])]
          = .ok [(k, .obj [("name", .str nm), ("value", w)])]) := by
  have hnil : getEncryption (.omap objects) = .ok [] := getEncrOMap_eq_nil objects h
  refine ⟨hnil, ?_, ?_⟩
  · unfold backupEncryption encryptionNames
    rw [hnil]
    simp [pluckName]
  · intro k nm w hnm
    have h1 : getEncryption (.omap [(k, .obj [("name", .str nm), ("value", w)])])
        = .ok [] := by
      refine getEncrOMap_eq_nil _ ?_
      intro kv hkv
      rw [List.mem_singleton] at hkv
      subst hkv
      refine ⟨.str nm, rfl, ?_⟩
      show encMatch (.str nm) (.obj [("name", .str nm), ("value", w)]) = false
      unfold encMatch inEncrSet
      simpa using hnm
    unfold backupEncryption encryptionNames
    rw [h1]
    simp [pluckName]

/-- C9 witness: the `theme`/`encrypt` batch is unchanged by
`_backupEncryption`, and the same holds for any value stored under a
non-encryption name. -/
theorem c9_classification_witness :
    backupEncryption [] objectsC9 = .ok objectsC9
    ∧ backupEncryption [] [("theme", .obj [("name", .str "theme"),
        ("value", .str "encryptPass")])]
      = .ok [("theme", .obj [("name", .str "theme"),
          ("value", .str "encryptPass")])] := by
  have h := c9_classification [] objectsC9
      (by
        intro kv hkv
        rw [show objectsC9 = [("theme", .obj [("name", .str "theme"),
              ("value", .str "encrypt")])] from rfl, List.mem_singleton] at hkv
        subst hkv
        exact ⟨.str "theme", rfl, rfl⟩)
  exact ⟨h.2.1, h.2.2 "theme" "theme" (.str "encryptPass") rfl⟩

/-! ### Shared lemmas about `saveObjects` -/

/-- The profile-backup promise of `saveObjects` (configs.js 102–106). -/
def backupStep (env : Env) (objects : BatchInput) (useDefault : Model) :
    Except Err Unit × List SaveCall :=
  if jsTruthy (batchField objects "useDefaultConfigs")
  then backupEncrypt env useDefault.databaseId else (.ok (), [])

theorem saveObjects_unfold (env : Env) (objects : BatchInput) (useDefault : Model)
    (objs : List (String × JSVal))
    (hprep : saveObjectsPrep env objects = .ok objs) :
    saveObjects env objects useDefault =
      match firstError ((backupStep env objects useDefault).1 ::
          (entryResults env objs useDefault).map Prod.fst) with
      | some e =>
        ⟨.error e,
         (backupStep env objects useDefault).2 ++
           ((entryResults env objs useDefault).map Prod.snd).flatten, []⟩
      | none =>
        ⟨.ok (),
         (backupStep env objects useDefault).2 ++
           ((entryResults env objs useDefault).map Prod.snd).flatten,
         [.changed objs]⟩ := by
  unfold saveObjects backupStep
  rw [hprep]

theorem saveObjects_success (env : Env) (objects : BatchInput) (useDefault : Model)
    (objs : List (String × JSVal))
    (hprep : saveObjectsPrep env objects = .ok objs)
    (hb : (backupStep env objects useDefault).1 = .ok ())
    (hall : ∀ r ∈ entryResults env objs useDefault, r.1 = .ok ()) :
    saveObjects env objects useDefault =
      ⟨.ok (),
       (backupStep env objects useDefault).2 ++
         ((entryResults env objs useDefault).map Prod.snd).flatten,
       [.changed objs]⟩ := by
  have hfe : firstError ((backupStep env objects useDefault).1 ::
      (entryResults env objs useDefault).map Prod.fst) = none := by
    rw [firstError_eq_none_iff]
    intro r hr
    rcases List.mem_cons.mp hr with h1 | h1
    · rw [h1, hb]
    · obtain ⟨p, hp, hp2⟩ := List.mem_map.mp h1
      rw [← hp2]
      exact hall p hp
  rw [saveObjects_unfold env objects useDefault objs hprep, hfe]

theorem saveObjects_failure (env : Env) (objects : BatchInput) (useDefault : Model)
    (objs : List (String × JSVal))
    (hprep : saveObjectsPrep env objects = .ok objs)
    (hex : ∃ r ∈ entryResults env objs useDefault, ∃ e, r.1 = .error e) :
    (∃ e, (saveObjects env objects useDefault).res = .error e)
    ∧ (saveObjects env objects useDefault).events = [] := by
  obtain ⟨r, hr, e, he⟩ := hex
  have hfe : ∃ e', firstError ((backupStep env objects useDefault).1 ::
      (entryResults env objs useDefault).map Prod.fst) = some e' := by
    refine firstError_of_error _ ⟨r.1, ?_, e, he⟩
    exact List.mem_cons_of_mem _ (List.mem_map.mpr ⟨r, hr, rfl⟩)
  obtain ⟨e', hfe⟩ := hfe
  rw [saveObjects_unfold env objects useDefault objs hprep, hfe]
  exact ⟨⟨e', rfl⟩, rfl⟩

/-! ### C4 — batched save: completion, single event, atom of failure -/

/-- C4 (confirmed): once the batch is normalized and the backup entry
injected, (i) when the backup promise and every per-entry save succeed,
the operation resolves and exactly one `changed` event carrying the full
normalized batch is emitted; (ii) when any per-entry save fails, the
whole operation rejects and no `changed` event is emitted; (iii) in
either case every per-entry save call was issued (the batch joins all of
them before settling). -/
theorem c4_batched_save (env : Env) (objects : BatchInput) (useDefault : Model)
    (objs : List (String × JSVal))
    (hprep : saveObjectsPrep env objects = .ok objs) :
    ((backupStep env objects useDefault).1 = .ok () →
      (∀ r ∈ entryResults env objs useDefault, r.1 = .ok ()) →
      (saveObjects env objects useDefault).res = .ok ()
      ∧ (saveObjects env objects useDefault).events = [.changed objs])
    ∧ ((∃ r ∈ entryResults env objs useDefault, ∃ e, r.1 = .error e) →
      (∃ e, (saveObjects env objects useDefault).res = .error e)
      ∧ (saveObjects env objects useDefault).events = [])
    ∧ (saveObjects env objects useDefault).saves
        = (backupStep env objects useDefault).2 ++
            ((entryResults env objs useDefault).map Prod.snd).flatten := by
  refine ⟨?_, ?_, ?_⟩
  · intro hb hall
    rw [saveObjects_success env objects useDefault objs hprep hb hall]
    exact ⟨rfl, rfl⟩
  · exact saveObjects_failure env objects useDefault objs hprep
  · rw [saveObjects_unfold env objects useDefault objs hprep]
    cases firstError ((backupStep env objects useDefault).1 ::
        (entryResults env objs useDefault).map Prod.fst) with
    | none => rfl
    | some e => rfl

/-- A one-entry batch for the C4 witness. -/
def objectsC4 : BatchInput :=
  .omap [("appVersion", .obj [("name", .str "appVersion"), ("value", .str "3")])]

/-- The caller-supplied default-profile model used by the witnesses. -/
def useDefaultC4 : Model := ⟨"useDefaultConfigs", .num 0, .str "notes-db"⟩

/-- Environment `envSave` with a storage save that always fails. -/
def envSaveFail : Env :=
  { envSave with storSaveModel := fun _ _ => .error (.external "quota") }

/-- C4 witness: in the resolving environment the batch settles with
exactly one `changed` event carrying the normalized batch and one issued
save; in the failing environment the batch rejects and no event fires. -/
theorem c4_batched_save_witness :
    (saveObjects envSave objectsC4 useDefaultC4).events
      = [.changed [("appVersion",
          .obj [("name", .str "appVersion"), ("value", .str "3")])]]
    ∧ (saveObjects envSave objectsC4 useDefaultC4).res = .ok ()
    ∧ (∃ e, (saveObjects envSaveFail objectsC4 useDefaultC4).res = .error e)
    ∧ (saveObjects envSaveFail objectsC4 useDefaultC4).events = [] := by
  have hok := (c4_batched_save envSave objectsC4 useDefaultC4
      [("appVersion", .obj [("name", .str "appVersion"), ("value", .str "3")])]
      rfl).1 rfl
      (by
        intro r hr
        rw [show entryResults envSave
              [("appVersion", .obj [("name", .str "appVersion"), ("value", .str "3")])]
              useDefaultC4
            = [(.ok (), [⟨⟨"appVersion", .null, .str "notes-db"⟩,
                .obj [("name", .str "appVersion"), ("value", .str "3")]⟩])] from rfl,
           List.mem_singleton] at hr
        rw [hr])
  have hfail := (c4_batched_save envSaveFail objectsC4 useDefaultC4
      [("appVersion", .obj [("name", .str "appVersion"), ("value", .str "3")])]
      rfl).2.1
      ⟨(.error (.external "quota"),
        [⟨⟨"appVersion", .null, .str "notes-db"⟩,
          .obj [("name", .str "appVersion"), ("value", .str "3")]⟩]),
       by
        rw [show entryResults envSaveFail
              [("appVersion", .obj [("name", .str "appVersion"), ("value", .str "3")])]
              useDefaultC4
            = [(.error (.external "quota"),
                [⟨⟨"appVersion", .null, .str "notes-db"⟩,
                  .obj [("name", .str "appVersion"), ("value", .str "3")]⟩])] from rfl]
        exact List.mem_singleton.mpr rfl,
       .external "quota", rfl⟩
  exact ⟨hok.2, hok.1, hfail.1, hfail.2⟩

/-! ### C8 — entries resolving to no model are skipped -/

/-- C8 (confirmed): an entry whose name resolves to no storage model and
no built-in default is skipped by `saveObject` — no save call, no error;
a batch containing such an entry still resolves (when its other promises
succeed) and the single `changed` event still carries the never-persisted
entry. -/
theorem c8_skip_unknown (env : Env) (v : JSVal) (useDefault : Model) (nameV : JSVal)
    (hname : fieldEx v "name" = .ok nameV)
    (hstor : env.storGetModel nameV .undefined = .ok none)
    (hdef : env.getDefault nameV = none) :
    saveObject env v useDefault = (.ok (), [])
    ∧ ∀ (objects : BatchInput) (objs : List (String × JSVal)) (k : String),
        saveObjectsPrep env objects = .ok objs →
        (k, v) ∈ objs →
        (backupStep env objects useDefault).1 = .ok () →
        (∀ kv ∈ objs, (saveObject env kv.2 useDefault).1 = .ok ()) →
        (saveObjects env objects useDefault).res = .ok ()
        ∧ (saveObjects env objects useDefault).events = [.changed objs]
        ∧ (k, v) ∈ objs := by
  have hskip : saveObject env v useDefault = (.ok (), []) := by
    have hg : getModel env nameV .undefined = .ok none := by
      unfold getModel
      rw [hstor, hdef]
    unfold saveObject
    rw [hname]
    simp [hg]
  refine ⟨hskip, ?_⟩
  intro objects objs k hprep hmem hb hall
  have hall' : ∀ r ∈ entryResults env objs useDefault, r.1 = .ok () := by
    intro r hr
    obtain ⟨kv, hkv, hkv2⟩ := List.mem_map.mp hr
    rw [← hkv2]
    exact hall kv hkv
  rw [saveObjects_success env objects useDefault objs hprep hb hall']
  exact ⟨rfl, rfl, hmem⟩

/-- Environment `envA` restricted so no name resolves to a model or default. -/
def envGhost : Env := envA

/-- The never-resolvable entry of the C8 witness. -/
def ghostEntry : JSVal := .obj [("name", .str "ghost"), ("value", .str "g")]

/-- C8 witness: the `ghost` entry is skipped without a save call, yet a
batch consisting of it resolves and announces it in `changed`. -/
theorem c8_skip_unknown_witness :
    saveObject envGhost ghostEntry useDefaultC4 = (.ok (), [])
    ∧ (saveObjects envGhost (.omap [("ghost", ghostEntry)]) useDefaultC4).res = .ok ()
    ∧ (saveObjects envGhost (.omap [("ghost", ghostEntry)]) useDefaultC4).events
        = [.changed [("ghost", ghostEntry)]] := by
  have h := c8_skip_unknown envGhost ghostEntry useDefaultC4 (.str "ghost")
      rfl rfl rfl
  have h2 := h.2 (.omap [("ghost", ghostEntry)]) [("ghost", ghostEntry)] "ghost"
      rfl (List.mem_singleton.mpr rfl) rfl
      (by
        intro kv hkv
        rw [List.mem_singleton] at hkv
        subst hkv
        rw [h.1])
  exact ⟨h.1, h2.1, h2.2.1⟩

end ConfigsModule
